import Mathlib

/-!
Verification of the Sage research-report workflow (src/app.py).

The development shallowly embeds the workflow controller and its nodes:
persona generation (create_analysts), the per-persona interview loop
(conduct_interview plus the conditional edge of build_research_graph),
report synthesis (write_report), intro/conclusion splitting
(write_intro_conclusion), and report finalization (finalize_report).

External collaborators (the language-completion service, the web-search
service, the encyclopedic lookup, and the Python json.loads boundary) are
modelled as oracle functions bundled in a Services record.  Python runtime
semantics at the boundary (dict subscripting, slicing, keyword expansion
into the pydantic Analyst model, and which exception class each failure
raises) are embedded explicitly, since the except clause of
create_analysts catches only JSONDecodeError, KeyError and ValueError.
-/

namespace Sage

/-- JSON values, the possible results of json.loads on a completion
response.  Numbers are modelled as integers; no claim depends on
fractional values. -/
inductive Json where
  | null : Json
  | bool (b : Bool) : Json
  | num (n : Int) : Json
  | str (s : String) : Json
  | arr (elems : List Json) : Json
  | obj (fields : List (String × Json)) : Json

/-- The Python exception classes that can arise in create_analysts and in
the interview loop.  jsonDecodeError, keyError and valueError (which
includes pydantic ValidationError) are the classes listed in the except
clause; typeError and indexError are not. -/
inductive PyExc where
  | jsonDecodeError : PyExc
  | keyError : PyExc
  | valueError : PyExc
  | typeError : PyExc
  | indexError : PyExc
deriving Repr, DecidableEq

/-- Whether the except clause of create_analysts
(json.JSONDecodeError, KeyError, ValueError) catches the exception. -/
def PyExc.caughtByCreateAnalysts : PyExc → Bool
  | .jsonDecodeError => true
  | .keyError => true
  | .valueError => true
  | .typeError => false
  | .indexError => false

/-- The Analyst record: pydantic model with fields name, role,
affiliation. -/
structure Analyst where
  name : String
  role : String
  affiliation : String
deriving Repr, DecidableEq

/-- All three fields non-empty. -/
def validAnalyst (a : Analyst) : Bool :=
  a.name != "" && a.role != "" && a.affiliation != ""

/-- Result of the json.loads boundary: either a JSONDecodeError or a
parsed JSON value. -/
inductive LoadResult where
  | decodeError : LoadResult
  | ok (j : Json) : LoadResult

/-- Python subscript analysts_data[analysts-key]: on a dict it looks the
key up (KeyError when missing); on any other value (list, string, number,
bool, None) Python raises TypeError. -/
def pyGetAnalystsKey : Json → Except PyExc Json
  | .obj fields =>
    match fields.lookup "analysts" with
    | some v => .ok v
    | none => .error .keyError
  | _ => .error .typeError

/-- Python slice v[:3]: lists and strings slice (a string slices to its
first characters, each iterated as a one-character string); dicts and
scalars raise TypeError. -/
def pySliceFirst3 : Json → Except PyExc (List Json)
  | .arr elems => .ok (elems.take 3)
  | .str s => .ok ((s.toList.take 3).map fun c => Json.str (String.mk [c]))
  | _ => .error .typeError

/-- Analyst(**analyst) followed by .dict(): keyword expansion of a
non-mapping raises TypeError; a mapping missing one of the three fields,
or carrying a non-string value for one, fails pydantic validation
(ValidationError, a ValueError subclass); extra keys are ignored. -/
def pydanticAnalyst : Json → Except PyExc Analyst
  | .obj fields =>
    match fields.lookup "name", fields.lookup "role", fields.lookup "affiliation" with
    | some (.str n), some (.str r), some (.str a) => .ok (Analyst.mk n r a)
    | _, _, _ => .error .valueError
  | _ => .error .typeError

/-- The list comprehension building the roster: sequential, fail-fast. -/
def mapExcept (f : Json → Except PyExc Analyst) : List Json → Except PyExc (List Analyst)
  | [] => .ok []
  | x :: xs => (f x).bind fun a => (mapExcept f xs).bind fun as => .ok (a :: as)

/-- The try-block of create_analysts: json.loads, the analysts key,
the [:3] slice, and per-item Analyst validation. -/
def parseAnalysts : LoadResult → Except PyExc (List Analyst)
  | .decodeError => .error .jsonDecodeError
  | .ok j =>
    (pyGetAnalystsKey j).bind fun v =>
      (pySliceFirst3 v).bind fun items =>
        mapExcept pydanticAnalyst items

/-- The hardcoded fallback roster in the except branch of
create_analysts. -/
def fallbackAnalysts : List Analyst :=
  [ Analyst.mk "Default Analyst 1" "General Researcher" "University",
    Analyst.mk "Default Analyst 2" "Industry Expert" "Tech Company",
    Analyst.mk "Default Analyst 3" "Policy Advisor" "Government Think Tank" ]

/-- create_analysts as a function of the loaded completion response:
on a caught parse failure it substitutes the fallback roster; an
exception outside the except clause propagates.  Returns the roster and
the reset cursor. -/
def create_analysts (r : LoadResult) : Except PyExc (List Analyst × Nat) :=
  match parseAnalysts r with
  | .ok analysts => .ok (analysts, 0)
  | .error e =>
    if e.caughtByCreateAnalysts then .ok (fallbackAnalysts, 0) else .error e

/-- A structured search-result record with optional content and snippet
fields (a Python dict as returned by the search service). -/
structure DocRec where
  content : Option String
  snippet : Option String
deriving Repr, DecidableEq

/-- A heterogeneous search-result item: a dict, a plain string, or some
other shape (matching the isinstance branches of conduct_interview). -/
inductive SearchDoc where
  | record (d : DocRec) : SearchDoc
  | text (s : String) : SearchDoc
  | other : SearchDoc
deriving Repr, DecidableEq

/-- Normalization of one search item in conduct_interview: a dict yields
doc.get(content-key, empty) or doc.get(snippet-key, empty) (Python or
falls through on the empty string), a plain string is kept as-is, and
anything else is skipped (no branch appends). -/
def normalizeDoc : SearchDoc → Option String
  | .record d =>
    let c := d.content.getD ""
    some (if c ≠ "" then c else d.snippet.getD "")
  | .text s => some s
  | .other => none

/-- The search_contents list built by the normalization loop. -/
def searchContents (docs : List SearchDoc) : List String :=
  docs.filterMap normalizeDoc

/-- context = newline-join of search_contents ++ wiki_contents. -/
def buildContext (searchDocs : List SearchDoc) (wikiContents : List String) : String :=
  String.intercalate "\n" (searchContents searchDocs ++ wikiContents)

/-- Prefix test on character lists (Python substring match at the head). -/
def startsWith : List Char → List Char → Bool
  | [], _ => true
  | _ :: _, [] => false
  | p :: ps, c :: cs => p == c && startsWith ps cs

/-- Python str.strip character class (ASCII whitespace). -/
def pyIsSpace (c : Char) : Bool :=
  c == ' ' || c == '\t' || c == '\n' || c == '\r' || c == '\x0b' || c == '\x0c'

/-- Python str.strip on a character list. -/
def pyStripChars (l : List Char) : List Char :=
  ((l.dropWhile pyIsSpace).reverse.dropWhile pyIsSpace).reverse

/-- Python str.strip. -/
def pyStrip (s : String) : String :=
  String.mk (pyStripChars s.toList)

/-- Python str.replace(old, new): replaces every non-overlapping
occurrence left to right.  Fuel is the length of the scanned list; each
step consumes at least one character, so the fuel never runs out when
initialized with the full length. -/
def pyReplaceAux (old new : List Char) : Nat → List Char → List Char
  | _, [] => []
  | 0, s => s
  | fuel + 1, c :: rest =>
    if startsWith old (c :: rest) then
      new ++ pyReplaceAux old new fuel (List.drop (old.length - 1) rest)
    else
      c :: pyReplaceAux old new fuel rest

/-- Python s.replace(old, new). -/
def pyReplace (s old new : String) : String :=
  String.mk (pyReplaceAux old.toList new.toList s.toList.length s.toList)

/-- Python str.split(sep) for a non-empty separator: splits on every
non-overlapping occurrence left to right, keeping empty parts.  Fuel as
in pyReplaceAux. -/
def pySplitAux (sep : List Char) : Nat → List Char → List Char → List (List Char)
  | _, [], acc => [acc.reverse]
  | 0, s, acc => [acc.reverse ++ s]
  | fuel + 1, c :: rest, acc =>
    if startsWith sep (c :: rest) then
      acc.reverse :: pySplitAux sep fuel (List.drop (sep.length - 1) rest) []
    else
      pySplitAux sep fuel rest (c :: acc)

/-- Python s.split(sep). -/
def pySplit (s sep : String) : List String :=
  (pySplitAux sep.toList s.toList.length s.toList []).map String.mk

/-- Python s[:n] (slice by character count). -/
def pyTake (n : Nat) (s : String) : String :=
  String.mk (s.toList.take n)

/-- Python s[n:] (slice by character count). -/
def pyDrop (n : Nat) (s : String) : String :=
  String.mk (s.toList.drop n)

/-- Python len(s) in characters. -/
def pyLen (s : String) : Nat :=
  s.toList.length

/-- The ResearchState TypedDict threaded through the graph. -/
structure RState where
  topic : String
  analysts : List Analyst
  current_analyst_index : Nat
  sections : List String
  content : String
  introduction : String
  conclusion : String
  final_report : String
deriving Repr, DecidableEq

/-- The external collaborators: the completion service (a list of
message texts to one response text), the web-search service, the
encyclopedic loader (page contents of the loaded documents), and the
json.loads boundary applied to a completion response. -/
structure Services where
  llmComplete : List String → String
  tavilySearch : String → List SearchDoc
  wikiLoad : String → List String
  jsonLoads : String → LoadResult

/-- The persona-roster system message of create_analysts. -/
def personaMsg (topic : String) : String :=
  "Create 3 diverse AI analyst personas for the topic: " ++ topic ++
  ".\n    Output in JSON format with a single key analysts containing an array of objects, each with fields: name, role, affiliation."

/-- The question-generation system message of conduct_interview. -/
def questionMsg (topic : String) (a : Analyst) : String :=
  "You are " ++ a.name ++ ", " ++ a.role ++ ". Ask a question about " ++ topic ++ "."

/-- The answer-generation system message of conduct_interview. -/
def answerMsg (topic context : String) : String :=
  "You are an expert answering questions about " ++ topic ++
  ".\n    Use this context to answer: " ++ context

/-- The section-summarization system message of conduct_interview. -/
def summaryMsg (topic name : String) : String :=
  "Summarize this interview about " ++ topic ++ " conducted by " ++ name ++ ":"

/-- The report-synthesis system message of write_report. -/
def reportMsg (topic : String) (sections : List String) : String :=
  "Write a comprehensive report on " ++ topic ++ " based on these sections: " ++
  String.intercalate ", " sections

/-- The intro/conclusion system message of write_intro_conclusion. -/
def introConclMsg (topic : String) : String :=
  "Write an introduction and conclusion for this report on " ++ topic ++
  ". \n    Format your response as follows:\n    Introduction:\n    [Your introduction here]\n    Conclusion:\n    [Your conclusion here]"

/-- The body of one conduct_interview invocation once the current analyst
has been fetched: question, search query, retrieval from both services,
context assembly, answer, section summary; appends the section and
increments the cursor. -/
def conductStep (svc : Services) (s : RState) (analyst : Analyst) : RState :=
  let question := svc.llmComplete [questionMsg s.topic analyst]
  let search_query := svc.llmComplete ["Generate a search query based on the question.", question]
  let search_docs := svc.tavilySearch search_query
  let wiki_docs := svc.wikiLoad search_query
  let context := buildContext search_docs wiki_docs
  let answer := svc.llmComplete [answerMsg s.topic context, question]
  let interview := "Q: " ++ question ++ "\nA: " ++ answer
  let sectionText := svc.llmComplete [summaryMsg s.topic analyst.name, interview]
  { s with sections := s.sections ++ [sectionText],
           current_analyst_index := s.current_analyst_index + 1 }

/-- conduct_interview: fetching analysts[current_analyst_index] raises
IndexError when the cursor is out of range; otherwise the step runs. -/
def conduct_interview (svc : Services) (s : RState) : Except PyExc RState :=
  match s.analysts[s.current_analyst_index]? with
  | none => .error .indexError
  | some analyst => .ok (conductStep svc s analyst)

/-- The conditional-edge lambda of build_research_graph: route back to
conduct_interview while the cursor is below the roster length, else on
to write_report. -/
def loop_condition (s : RState) : String :=
  if s.current_analyst_index < s.analysts.length then "conduct_interview" else "write_report"

/-- The interview loop of the compiled graph: run conduct_interview, then
follow the conditional edge, looping while the cursor is below the roster
length.  The first component records the state at the start of each
conduct_interview invocation; the second is the final state or the
propagated exception. -/
def runInterviewsT (svc : Services) (s : RState) : List RState × Except PyExc RState :=
  match s.analysts[s.current_analyst_index]? with
  | none => ([s], .error .indexError)
  | some analyst =>
    if h : (conductStep svc s analyst).current_analyst_index <
        (conductStep svc s analyst).analysts.length then
      let r := runInterviewsT svc (conductStep svc s analyst)
      (s :: r.1, r.2)
    else
      ([s], .ok (conductStep svc s analyst))
termination_by s.analysts.length - s.current_analyst_index
decreasing_by
  simp [conductStep] at h ⊢
  omega

/-- The create_analysts node: one completion request, json.loads, and the
roster/cursor update merged into the state. -/
def create_analysts_node (svc : Services) (s : RState) : Except PyExc RState :=
  let resp := svc.llmComplete [personaMsg s.topic]
  match create_analysts (svc.jsonLoads resp) with
  | .ok p => .ok { s with analysts := p.1, current_analyst_index := p.2 }
  | .error e => .error e

/-- The write_report node: one completion request producing the body. -/
def write_report_node (svc : Services) (s : RState) : RState :=
  { s with content := svc.llmComplete [reportMsg s.topic s.sections] }

/-- The parsing contract of write_intro_conclusion: split the response on
the conclusion label; on exactly two parts, strip the introduction label
from the first (str.replace removes every occurrence) and trim both;
otherwise cut the raw response at its character midpoint and trim both
halves. -/
def splitIntroConclusion (resp : String) : String × String :=
  match pySplit resp "Conclusion:" with
  | [p0, p1] => (pyStrip (pyReplace p0 "Introduction:" ""), pyStrip p1)
  | _ =>
    let mid := pyLen resp / 2
    (pyStrip (pyTake mid resp), pyStrip (pyDrop mid resp))

/-- The write_intro_conclusion node. -/
def write_intro_conclusion_node (svc : Services) (s : RState) : RState :=
  let resp := svc.llmComplete [introConclMsg s.topic, s.content]
  let p := splitIntroConclusion resp
  { s with introduction := p.1, conclusion := p.2 }

/-- finalize_report: introduction, body, conclusion joined by blank
lines. -/
def finalize_report (introduction content conclusion : String) : String :=
  introduction ++ "\n\n" ++ content ++ "\n\n" ++ conclusion

/-- The finalize_report node. -/
def finalize_report_node (s : RState) : RState :=
  { s with final_report := finalize_report s.introduction s.content s.conclusion }

/-- The compiled graph run end to end: create_analysts, the interview
loop, write_report, write_intro_conclusion, finalize_report.  The first
component is the list of states at the start of each conduct_interview
invocation. -/
def run_graphT (svc : Services) (s0 : RState) : List RState × Except PyExc RState :=
  match create_analysts_node svc s0 with
  | .error e => ([], .error e)
  | .ok s1 =>
    match runInterviewsT svc s1 with
    | (tr, .error e) => (tr, .error e)
    | (tr, .ok s2) =>
      (tr, .ok (finalize_report_node (write_intro_conclusion_node svc (write_report_node svc s2))))

/-- The initial state dict passed by the UI to graph.invoke. -/
def initialState (topic : String) : RState :=
  { topic := topic, analysts := [], current_analyst_index := 0, sections := [],
    content := "", introduction := "", conclusion := "", final_report := "" }

/-- The mixed evidence list of the normalization property: a record with
a content field, a record with only a snippet field, a plain string, and
a record with neither field. -/
def mixedDocs : List SearchDoc :=
  [ SearchDoc.record (DocRec.mk (some "alpha content") none),
    SearchDoc.record (DocRec.mk none (some "beta snippet")),
    SearchDoc.text "gamma text",
    SearchDoc.record (DocRec.mk none none) ]

/-- JSON for one analyst record. -/
def analystJson (n r a : String) : Json :=
  Json.obj [("name", Json.str n), ("role", Json.str r), ("affiliation", Json.str a)]

/-- A well-formed roster response listing only one analyst. -/
def shortRosterJson : Json :=
  Json.obj [("analysts", Json.arr [analystJson "A" "R" "U"])]

/-- A four-analyst response array. -/
def js4 : List Json :=
  [ analystJson "A1" "R1" "F1", analystJson "A2" "R2" "F2",
    analystJson "A3" "R3" "F3", analystJson "A4" "R4" "F4" ]

/-- The four analysts of js4. -/
def all4 : List Analyst :=
  [ Analyst.mk "A1" "R1" "F1", Analyst.mk "A2" "R2" "F2",
    Analyst.mk "A3" "R3" "F3", Analyst.mk "A4" "R4" "F4" ]

/-- Trivial collaborators: empty completion responses, no search or wiki
results, and a completion response that fails json.loads. -/
def constServices : Services :=
  { llmComplete := fun _ => "",
    tavilySearch := fun _ => [],
    wikiLoad := fun _ => [],
    jsonLoads := fun _ => LoadResult.decodeError }

/-- Collaborators whose persona response is valid JSON listing an empty
analysts array. -/
def emptyRosterServices : Services :=
  { llmComplete := fun _ => "",
    tavilySearch := fun _ => [],
    wikiLoad := fun _ => [],
    jsonLoads := fun _ => LoadResult.ok (Json.obj [("analysts", Json.arr [])]) }

/-- A state with a single analyst, cursor 0 and no sections. -/
def oneAnalystState : RState :=
  { topic := "t", analysts := [Analyst.mk "A" "R" "U"], current_analyst_index := 0,
    sections := [], content := "", introduction := "", conclusion := "", final_report := "" }

/-- A state ready for finalization. -/
def sampleFinalState : RState :=
  { topic := "t", analysts := [], current_analyst_index := 0, sections := [],
    content := "BODY", introduction := "INTRO", conclusion := "END", final_report := "" }

/- ------------------------------------------------------------------ -/
/- Helper lemmas                                                       -/
/- ------------------------------------------------------------------ -/

theorem exceptBind_ok {α β : Type} (x : α) (f : α → Except PyExc β) :
    (Except.ok x : Except PyExc α).bind f = f x := rfl

theorem exceptBind_error {α β : Type} (e : PyExc) (f : α → Except PyExc β) :
    (Except.error e : Except PyExc α).bind f = Except.error e := rfl

theorem mapExcept_length (f : Json → Except PyExc Analyst) :
    ∀ (l : List Json) (res : List Analyst),
      mapExcept f l = Except.ok res → res.length = l.length := by
  intro l
  induction l with
  | nil =>
    intro res h
    simp only [mapExcept] at h
    injection h with h
    subst h
    rfl
  | cons x xs ih =>
    intro res h
    simp only [mapExcept] at h
    cases hf : f x with
    | error e => rw [hf, exceptBind_error] at h; cases h
    | ok a =>
      rw [hf, exceptBind_ok] at h
      cases hm : mapExcept f xs with
      | error e => rw [hm, exceptBind_error] at h; cases h
      | ok as =>
        rw [hm, exceptBind_ok] at h
        injection h with h
        subst h
        simp [ih as hm]

theorem mapExcept_take (f : Json → Except PyExc Analyst) :
    ∀ (l : List Json) (n : Nat) (res : List Analyst),
      mapExcept f l = Except.ok res →
      mapExcept f (l.take n) = Except.ok (res.take n) := by
  intro l
  induction l with
  | nil =>
    intro n res h
    simp only [mapExcept] at h
    injection h with h
    subst h
    simp [mapExcept]
  | cons x xs ih =>
    intro n res h
    simp only [mapExcept] at h
    cases hf : f x with
    | error e => rw [hf, exceptBind_error] at h; cases h
    | ok a =>
      rw [hf, exceptBind_ok] at h
      cases hm : mapExcept f xs with
      | error e => rw [hm, exceptBind_error] at h; cases h
      | ok as =>
        rw [hm, exceptBind_ok] at h
        injection h with h
        subst h
        cases n with
        | zero => simp [mapExcept]
        | succ n =>
          simp only [List.take_succ_cons, mapExcept]
          rw [hf, exceptBind_ok, ih n as hm, exceptBind_ok]

theorem pySliceFirst3_length (v : Json) (items : List Json)
    (h : pySliceFirst3 v = Except.ok items) : items.length ≤ 3 := by
  cases v <;> simp only [pySliceFirst3] at h
  case arr elems =>
    injection h with h
    subst h
    simp [List.length_take]
  case str s =>
    injection h with h
    subst h
    simp [List.length_take]
  all_goals cases h

theorem parseAnalysts_length (r : LoadResult) (l : List Analyst)
    (h : parseAnalysts r = Except.ok l) : l.length ≤ 3 := by
  cases r with
  | decodeError => cases h
  | ok j =>
    simp only [parseAnalysts] at h
    cases hg : pyGetAnalystsKey j with
    | error e => rw [hg, exceptBind_error] at h; cases h
    | ok v =>
      rw [hg, exceptBind_ok] at h
      cases hs : pySliceFirst3 v with
      | error e => rw [hs, exceptBind_error] at h; cases h
      | ok items =>
        rw [hs, exceptBind_ok] at h
        have h1 := mapExcept_length pydanticAnalyst items l h
        have h2 := pySliceFirst3_length v items hs
        omega

theorem create_analysts_ok_shape (r : LoadResult) (roster : List Analyst) (idx : Nat)
    (h : create_analysts r = Except.ok (roster, idx)) :
    idx = 0 ∧ roster.length ≤ 3 := by
  cases hp : parseAnalysts r with
  | ok l =>
    simp only [create_analysts, hp] at h
    injection h with h
    have h1 : l = roster := congrArg Prod.fst h
    have h2 : (0 : Nat) = idx := congrArg Prod.snd h
    subst h1
    exact ⟨h2.symm, parseAnalysts_length r _ hp⟩
  | error e =>
    simp only [create_analysts, hp] at h
    by_cases hc : e.caughtByCreateAnalysts
    · rw [if_pos hc] at h
      injection h with h
      have h1 : fallbackAnalysts = roster := congrArg Prod.fst h
      have h2 : (0 : Nat) = idx := congrArg Prod.snd h
      subst h1
      exact ⟨h2.symm, by decide⟩
    · rw [if_neg hc] at h; cases h

theorem conductStep_analysts (svc : Services) (s : RState) (a : Analyst) :
    (conductStep svc s a).analysts = s.analysts := rfl

theorem conductStep_index (svc : Services) (s : RState) (a : Analyst) :
    (conductStep svc s a).current_analyst_index = s.current_analyst_index + 1 := rfl

theorem conductStep_sections_length (svc : Services) (s : RState) (a : Analyst) :
    (conductStep svc s a).sections.length = s.sections.length + 1 := by
  simp [conductStep]

theorem runInterviewsT_ok (svc : Services) :
    ∀ (k : Nat) (s : RState),
      s.analysts.length - s.current_analyst_index = k →
      s.current_analyst_index < s.analysts.length →
      ∃ s', (runInterviewsT svc s).2 = Except.ok s' ∧
        (runInterviewsT svc s).1.length = k ∧
        s'.analysts = s.analysts ∧
        s'.current_analyst_index = s.analysts.length ∧
        s'.sections.length = s.sections.length + k := by
  intro k
  induction k with
  | zero => intro s hk hlt; omega
  | succ k ih =>
    intro s hk hlt
    obtain ⟨a, ha⟩ : ∃ a, s.analysts[s.current_analyst_index]? = some a :=
      ⟨_, List.getElem?_eq_getElem hlt⟩
    unfold runInterviewsT
    rw [ha]
    dsimp only
    by_cases hb : (conductStep svc s a).current_analyst_index < (conductStep svc s a).analysts.length
    · rw [dif_pos hb]
      rw [conductStep_index, conductStep_analysts] at hb
      have hk' : (conductStep svc s a).analysts.length -
          (conductStep svc s a).current_analyst_index = k := by
        rw [conductStep_index, conductStep_analysts]; omega
      have hlt' : (conductStep svc s a).current_analyst_index <
          (conductStep svc s a).analysts.length := by
        rw [conductStep_index, conductStep_analysts]; omega
      obtain ⟨s'', h1, h2, h3, h4, h5⟩ := ih (conductStep svc s a) hk' hlt'
      refine ⟨s'', h1, ?_, ?_, ?_, ?_⟩
      · simp [h2]
      · rw [h3, conductStep_analysts]
      · rw [h4, conductStep_analysts]
      · rw [h5, conductStep_sections_length]; omega
    · rw [dif_neg hb]
      rw [conductStep_index, conductStep_analysts] at hb
      refine ⟨conductStep svc s a, rfl, ?_, conductStep_analysts svc s a, ?_, ?_⟩
      · simp; omega
      · rw [conductStep_index]; omega
      · rw [conductStep_sections_length]; omega

theorem runInterviewsT_inv (svc : Services) :
    ∀ (k : Nat) (s : RState),
      s.analysts.length - s.current_analyst_index = k →
      s.sections.length = s.current_analyst_index →
      s.current_analyst_index ≤ s.analysts.length →
      ∀ t ∈ (runInterviewsT svc s).1,
        t.sections.length = t.current_analyst_index ∧
        t.current_analyst_index ≤ t.analysts.length := by
  intro k
  induction k with
  | zero =>
    intro s hk hsec hle t ht
    have hnone : s.analysts[s.current_analyst_index]? = none :=
      List.getElem?_eq_none (by omega)
    unfold runInterviewsT at ht
    rw [hnone] at ht
    dsimp only at ht
    rw [List.mem_singleton.mp ht]
    exact ⟨hsec, hle⟩
  | succ k ih =>
    intro s hk hsec hle t ht
    have hlt : s.current_analyst_index < s.analysts.length := by omega
    obtain ⟨a, ha⟩ : ∃ a, s.analysts[s.current_analyst_index]? = some a :=
      ⟨_, List.getElem?_eq_getElem hlt⟩
    unfold runInterviewsT at ht
    rw [ha] at ht
    dsimp only at ht
    by_cases hb : (conductStep svc s a).current_analyst_index < (conductStep svc s a).analysts.length
    · rw [dif_pos hb] at ht
      rcases List.mem_cons.mp ht with h | h
      · rw [h]; exact ⟨hsec, hle⟩
      · have hk' : (conductStep svc s a).analysts.length -
            (conductStep svc s a).current_analyst_index = k := by
          rw [conductStep_index, conductStep_analysts]; omega
        have hsec' : (conductStep svc s a).sections.length =
            (conductStep svc s a).current_analyst_index := by
          rw [conductStep_index, conductStep_sections_length]; omega
        have hle' : (conductStep svc s a).current_analyst_index ≤
            (conductStep svc s a).analysts.length := by
          rw [conductStep_index, conductStep_analysts]
          rw [conductStep_index, conductStep_analysts] at hb
          omega
        exact ih (conductStep svc s a) hk' hsec' hle' t h
    · rw [dif_neg hb] at ht
      rw [List.mem_singleton.mp ht]
      exact ⟨hsec, hle⟩

theorem loop_condition_conduct (t : RState) :
    loop_condition t = "conduct_interview" ↔
      t.current_analyst_index < t.analysts.length := by
  by_cases h : t.current_analyst_index < t.analysts.length
  · simp [loop_condition, h]
  · simp [loop_condition, h]

theorem loop_condition_write (t : RState)
    (hle : t.current_analyst_index ≤ t.analysts.length) :
    loop_condition t = "write_report" ↔
      t.current_analyst_index = t.analysts.length := by
  by_cases h : t.current_analyst_index < t.analysts.length
  · simp [loop_condition, h]; omega
  · simp [loop_condition, h]; omega

theorem create_analysts_node_ok (svc : Services) (s0 s1 : RState)
    (h : create_analysts_node svc s0 = Except.ok s1) :
    s1.current_analyst_index = 0 ∧ s1.sections = s0.sections := by
  simp only [create_analysts_node] at h
  cases hc : create_analysts (svc.jsonLoads (svc.llmComplete [personaMsg s0.topic])) with
  | error e => rw [hc] at h; cases h
  | ok p =>
    rw [hc] at h
    injection h with h
    obtain ⟨hidx, -⟩ := create_analysts_ok_shape _ p.1 p.2 hc
    rw [← h]
    exact ⟨hidx, rfl⟩

theorem run_graphT_trace (svc : Services) (s0 : RState) :
    (run_graphT svc s0).1 =
      match create_analysts_node svc s0 with
      | .error _ => []
      | .ok s1 => (runInterviewsT svc s1).1 := by
  cases hc : create_analysts_node svc s0 with
  | error e => simp [run_graphT, hc]
  | ok s1 =>
    simp only [run_graphT, hc]
    rcases hr : runInterviewsT svc s1 with ⟨tr, r⟩
    cases r <;> simp

theorem run_graphT_empty_eval :
    run_graphT emptyRosterServices (initialState "t") =
      ([initialState "t"], Except.error PyExc.indexError) := by
  have h1 : create_analysts_node emptyRosterServices (initialState "t") =
      Except.ok (initialState "t") := rfl
  have h2 : runInterviewsT emptyRosterServices (initialState "t") =
      ([initialState "t"], Except.error PyExc.indexError) := by
    unfold runInterviewsT
    rfl
  simp only [run_graphT, h1, h2]

/- ------------------------------------------------------------------ -/
/- Claims                                                              -/
/- ------------------------------------------------------------------ -/

/-- C1 counterexample: on the mixed evidence list (a record with a
content field, a record with only a snippet field, a plain string, a
record with neither field), the normalization of conduct_interview keeps
the empty-field record as the empty string instead of dropping it, so it
yields four items, one of them empty, not exactly three non-empty
items. -/
theorem evidence_normalization_counterexample :
    searchContents mixedDocs = ["alpha content", "beta snippet", "gamma text", ""] ∧
    (searchContents mixedDocs).length ≠ 3 ∧
    "" ∈ searchContents mixedDocs := by
  refine ⟨rfl, by decide, by decide⟩

/-- C1 amended: the conductor normalizes records via their content field
when non-empty, else their snippet field (defaulting to the empty
string), keeps plain strings as-is, and skips only items that are neither
records nor strings; all normalized items, the empty string included, are
joined with newlines, search results first and encyclopedic content
after.  On the mixed list this yields four items with the empty-field
record contributing an empty string, in the original relative order. -/
theorem evidence_normalization_amended (d0 d1 : DocRec) (c sn : String)
    (h0 : d0.content = some c) (hc : c ≠ "")
    (h1 : d1.content = none) (hsn : d1.snippet = some sn) :
    normalizeDoc (SearchDoc.record d0) = some c ∧
    normalizeDoc (SearchDoc.record d1) = some sn ∧
    normalizeDoc (SearchDoc.text "gamma text") = some "gamma text" ∧
    normalizeDoc (SearchDoc.record (DocRec.mk none none)) = some "" ∧
    normalizeDoc SearchDoc.other = none ∧
    searchContents mixedDocs = ["alpha content", "beta snippet", "gamma text", ""] ∧
    buildContext mixedDocs ["wiki page"] =
      "alpha content\nbeta snippet\ngamma text\n\nwiki page" := by
  refine ⟨?_, ?_, rfl, rfl, rfl, rfl, rfl⟩
  · simp [normalizeDoc, h0, hc]
  · simp [normalizeDoc, h1, hsn]

/-- C1 amended witness at the concrete records of the mixed list. -/
theorem evidence_normalization_amended_witness :
    normalizeDoc (SearchDoc.record (DocRec.mk (some "alpha content") none)) = some "alpha content" ∧
    normalizeDoc (SearchDoc.record (DocRec.mk none (some "beta snippet"))) = some "beta snippet" ∧
    normalizeDoc (SearchDoc.text "gamma text") = some "gamma text" ∧
    normalizeDoc (SearchDoc.record (DocRec.mk none none)) = some "" ∧
    normalizeDoc SearchDoc.other = none ∧
    searchContents mixedDocs = ["alpha content", "beta snippet", "gamma text", ""] ∧
    buildContext mixedDocs ["wiki page"] =
      "alpha content\nbeta snippet\ngamma text\n\nwiki page" :=
  evidence_normalization_amended (DocRec.mk (some "alpha content") none)
    (DocRec.mk none (some "beta snippet")) "alpha content" "beta snippet"
    rfl (by decide) rfl rfl

/-- C2: the persona parser does not survive every parse failure.  A
completion response that is valid JSON whose top level is an array (for
example the response text consisting of an empty array) makes the
subscript by the analysts key raise TypeError, which the except clause
(JSONDecodeError, KeyError, ValueError) does not catch, so create_analysts
propagates the error and the run aborts instead of substituting the
fallback roster. -/
theorem create_analysts_typeerror_aborts :
    create_analysts (LoadResult.ok (Json.arr [])) = Except.error PyExc.typeError ∧
    PyExc.typeError.caughtByCreateAnalysts = false :=
  ⟨rfl, rfl⟩

/-- C3 counterexample: a well-formed persona response listing exactly one
valid analyst produces a roster of one record, not exactly three. -/
theorem create_analysts_short_roster_counterexample :
    create_analysts (LoadResult.ok shortRosterJson) =
      Except.ok ([Analyst.mk "A" "R" "U"], 0) ∧
    [Analyst.mk "A" "R" "U"].length ≠ 3 :=
  ⟨rfl, by decide⟩

/-- C3 amended: whenever create_analysts completes without an uncaught
exception the roster has at most 3 records and the cursor is reset to 0;
on any caught parse failure (JSON decode error, missing analysts key on
an object, validation failure) the roster is exactly the 3 hardcoded
fallback analysts, each with non-empty name, role and affiliation.  A
well-formed response listing fewer than 3 valid analysts yields that
smaller roster, and a response whose JSON is not an object aborts with an
uncaught TypeError. -/
theorem create_analysts_roster_amended (r : LoadResult) (roster : List Analyst) (idx : Nat)
    (h : create_analysts r = Except.ok (roster, idx)) :
    idx = 0 ∧ roster.length ≤ 3 ∧
    ∀ e, parseAnalysts r = Except.error e →
      roster = fallbackAnalysts ∧ roster.length = 3 ∧ roster.all validAnalyst = true := by
  obtain ⟨hidx, hlen⟩ := create_analysts_ok_shape r roster idx h
  refine ⟨hidx, hlen, ?_⟩
  intro e he
  simp only [create_analysts, he] at h
  by_cases hc : e.caughtByCreateAnalysts
  · rw [if_pos hc] at h
    injection h with h
    have h1 : fallbackAnalysts = roster := congrArg Prod.fst h
    subst h1
    exact ⟨rfl, by decide, by decide⟩
  · rw [if_neg hc] at h; cases h

/-- C3 amended witness: a JSON decode error yields the fallback roster of
3 valid analysts with cursor 0. -/
theorem create_analysts_roster_amended_witness :
    fallbackAnalysts = fallbackAnalysts ∧ fallbackAnalysts.length = 3 ∧
    fallbackAnalysts.all validAnalyst = true :=
  (create_analysts_roster_amended LoadResult.decodeError fallbackAnalysts 0 rfl).2.2
    PyExc.jsonDecodeError rfl

/-- C4 counterexample: with a persona response that parses to an empty
roster (size N = 0), the unconditional edge from create_analysts still
enters conduct_interview once (the invocation trace has length 1, not 0)
and the run aborts with an IndexError instead of terminating with cursor
N and N sections. -/
theorem interview_loop_zero_roster_aborts :
    (run_graphT emptyRosterServices (initialState "t")).2 = Except.error PyExc.indexError ∧
    (run_graphT emptyRosterServices (initialState "t")).1.length = 1 := by
  rw [run_graphT_empty_eval]
  exact ⟨rfl, rfl⟩

/-- C4 amended: for any initial roster of size N at least 1 (cursor 0, no
sections yet), the interview loop terminates: conduct_interview is
invoked exactly N times, the cursor ends at N, the number of accumulated
sections equals N, the conditional edge evaluated after the last
completion advances to write_report, and in general the edge loops back
to the conductor exactly when the cursor is below the roster length.
For N = 0 the conductor is still entered once by the unconditional edge
and the run aborts on an index error. -/
theorem interview_loop_runs_roster_length (svc : Services) (s : RState)
    (hN : 1 ≤ s.analysts.length)
    (hc : s.current_analyst_index = 0) (hs : s.sections = []) :
    (∃ s', (runInterviewsT svc s).2 = Except.ok s' ∧
       s'.current_analyst_index = s.analysts.length ∧
       s'.sections.length = s.analysts.length ∧
       loop_condition s' = "write_report") ∧
    (runInterviewsT svc s).1.length = s.analysts.length ∧
    ∀ t : RState, loop_condition t = "conduct_interview" ↔
      t.current_analyst_index < t.analysts.length := by
  obtain ⟨s', h1, h2, h3, h4, h5⟩ :=
    runInterviewsT_ok svc (s.analysts.length - s.current_analyst_index) s rfl (by omega)
  refine ⟨⟨s', h1, ?_, ?_, ?_⟩, ?_, loop_condition_conduct⟩
  · exact h4
  · rw [h5, hs]; simp; omega
  · have : ¬ s'.current_analyst_index < s'.analysts.length := by
      rw [h3, h4]; omega
    simp [loop_condition, this]
  · rw [h2]; omega

/-- C4 amended witness: a one-analyst roster runs the conductor exactly
once. -/
theorem interview_loop_runs_roster_length_witness :
    (runInterviewsT constServices oneAnalystState).1.length =
      oneAnalystState.analysts.length :=
  (interview_loop_runs_roster_length constServices oneAnalystState
    (by decide) rfl rfl).2.1

/-- C5: throughout every run started with an empty sections list, at the
start of every conduct_interview invocation the state satisfies
0 ≤ cursor ≤ roster length and sections length = cursor; every completed
invocation appends exactly one section, increments the cursor by exactly
1, re-establishes sections length = cursor with cursor ≤ roster length,
and the conditional edge is terminal (routes to write_report) exactly
when the cursor equals the roster length. -/
theorem research_state_invariant (svc : Services) (s0 : RState)
    (hs : s0.sections = []) :
    (∀ t ∈ (run_graphT svc s0).1,
       t.sections.length = t.current_analyst_index ∧
       t.current_analyst_index ≤ t.analysts.length) ∧
    (∀ t, t ∈ (run_graphT svc s0).1 →
       ∀ t', conduct_interview svc t = Except.ok t' →
         t'.sections.length = t.sections.length + 1 ∧
         t'.current_analyst_index = t.current_analyst_index + 1 ∧
         t'.sections.length = t'.current_analyst_index ∧
         t'.current_analyst_index ≤ t'.analysts.length ∧
         (loop_condition t' = "write_report" ↔
           t'.current_analyst_index = t'.analysts.length)) := by
  have hinv : ∀ t ∈ (run_graphT svc s0).1,
      t.sections.length = t.current_analyst_index ∧
      t.current_analyst_index ≤ t.analysts.length := by
    intro t ht
    rw [run_graphT_trace] at ht
    cases hc : create_analysts_node svc s0 with
    | error e => rw [hc] at ht; cases ht
    | ok s1 =>
      rw [hc] at ht
      obtain ⟨hidx, hsec⟩ := create_analysts_node_ok svc s0 s1 hc
      refine runInterviewsT_inv svc (s1.analysts.length - s1.current_analyst_index) s1 rfl ?_ ?_ t ht
      · rw [hsec, hs, hidx]; rfl
      · omega
  refine ⟨hinv, ?_⟩
  intro t ht t' h'
  obtain ⟨hts, htle⟩ := hinv t ht
  simp only [conduct_interview] at h'
  cases hga : t.analysts[t.current_analyst_index]? with
  | none => rw [hga] at h'; cases h'
  | some a =>
    rw [hga] at h'
    injection h' with h'
    have hlt : t.current_analyst_index < t.analysts.length :=
      (List.getElem?_eq_some.mp hga).1
    rw [← h']
    refine ⟨conductStep_sections_length svc t a, conductStep_index svc t a, ?_, ?_, ?_⟩
    · rw [conductStep_sections_length, conductStep_index, hts]
    · rw [conductStep_index, conductStep_analysts]; omega
    · refine loop_condition_write (conductStep svc t a) ?_
      rw [conductStep_index, conductStep_analysts]
      omega

/-- C5 witness: the run with an empty-roster persona response has one
conductor invocation state, which satisfies the invariant. -/
theorem research_state_invariant_witness :
    (initialState "t").sections.length = (initialState "t").current_analyst_index ∧
    (initialState "t").current_analyst_index ≤ (initialState "t").analysts.length :=
  (research_state_invariant emptyRosterServices (initialState "t") rfl).1
    (initialState "t") (by rw [run_graphT_empty_eval]; simp)

/-- C6: when the response splits on the conclusion label into exactly two
parts, the writer returns the first part with every introduction label
removed and trimmed as the introduction, and the second part trimmed as
the conclusion; on the labeled response with introduction A and
conclusion B it yields exactly A and B. -/
theorem labeled_split_correct (resp p0 p1 : String)
    (h : pySplit resp "Conclusion:" = [p0, p1]) :
    splitIntroConclusion resp = (pyStrip (pyReplace p0 "Introduction:" ""), pyStrip p1) ∧
    splitIntroConclusion "Introduction:\nA\nConclusion:\nB" = ("A", "B") := by
  constructor
  · simp only [splitIntroConclusion, h]
  · rfl

/-- C6 witness at the labeled response of the claim. -/
theorem labeled_split_correct_witness :
    splitIntroConclusion "Introduction:\nA\nConclusion:\nB" = ("A", "B") :=
  (labeled_split_correct "Introduction:\nA\nConclusion:\nB"
    "Introduction:\nA\n" "\nB" (by decide)).2

/-- C7: when the split on the conclusion label yields any part count
other than two (in particular when the label is absent), the writer cuts
the raw response at its character midpoint and trims both halves. -/
theorem fallback_split_correct (resp : String)
    (h : (pySplit resp "Conclusion:").length ≠ 2) :
    splitIntroConclusion resp =
      (pyStrip (pyTake (pyLen resp / 2) resp), pyStrip (pyDrop (pyLen resp / 2) resp)) := by
  simp only [splitIntroConclusion]
  split
  · next p0 p1 heq => exact absurd (by rw [heq]; rfl) h
  · rfl

/-- C7 witness: a 20-character response without the conclusion label is
cut at character 10 and both halves are trimmed. -/
theorem fallback_split_correct_witness :
    splitIntroConclusion "abcdefghij klmnopqrs" = ("abcdefghij", "klmnopqrs") := by
  rw [fallback_split_correct "abcdefghij klmnopqrs" (by decide)]
  decide

/-- C8: finalize_report is a pure deterministic function of the
introduction, body and conclusion fields: states agreeing on those three
fields finalize identically, the output is introduction, body, conclusion
in that fixed order separated by blank lines (one copy of each), and
running the node twice yields the same final text. -/
theorem finalize_report_deterministic (s t : RState)
    (hi : s.introduction = t.introduction) (hb : s.content = t.content)
    (hc : s.conclusion = t.conclusion) :
    (finalize_report_node s).final_report = (finalize_report_node t).final_report ∧
    (finalize_report_node s).final_report =
      s.introduction ++ "\n\n" ++ s.content ++ "\n\n" ++ s.conclusion ∧
    (finalize_report_node (finalize_report_node s)).final_report =
      (finalize_report_node s).final_report := by
  refine ⟨?_, rfl, rfl⟩
  simp [finalize_report_node, finalize_report, hi, hb, hc]

/-- C8 witness at a concrete state. -/
theorem finalize_report_deterministic_witness :
    (finalize_report_node sampleFinalState).final_report =
      (finalize_report_node sampleFinalState).final_report ∧
    (finalize_report_node sampleFinalState).final_report =
      sampleFinalState.introduction ++ "\n\n" ++ sampleFinalState.content ++ "\n\n" ++
        sampleFinalState.conclusion ∧
    (finalize_report_node (finalize_report_node sampleFinalState)).final_report =
      (finalize_report_node sampleFinalState).final_report :=
  finalize_report_deterministic sampleFinalState sampleFinalState rfl rfl rfl

/-- C9: in the labeled-split case the writer applies str.replace, which
removes every occurrence of the introduction label from the first part,
not only a leading one; a response whose introduction text itself
contains the label has those interior occurrences deleted. -/
theorem intro_label_interior_removed (resp p0 p1 : String)
    (h : pySplit resp "Conclusion:" = [p0, p1]) :
    (splitIntroConclusion resp).1 = pyStrip (pyReplace p0 "Introduction:" "") ∧
    splitIntroConclusion "Introduction:\nX Introduction: Y\nConclusion:\nZ" = ("X  Y", "Z") := by
  constructor
  · simp only [splitIntroConclusion, h]
  · rfl

/-- C9 witness: an interior introduction label is deleted from the
returned introduction. -/
theorem intro_label_interior_removed_witness :
    splitIntroConclusion "Introduction:\nX Introduction: Y\nConclusion:\nZ" = ("X  Y", "Z") :=
  (intro_label_interior_removed "Introduction:\nX Introduction: Y\nConclusion:\nZ"
    "Introduction:\nX Introduction: Y\n" "\nZ" (by decide)).2

/-- C10: when the response parses as a roster of valid analyst records,
create_analysts keeps exactly the first 3 records in response order
(the [:3] slice) and silently discards the rest; and for every response,
a returned roster never has more than 3 entries. -/
theorem create_analysts_first_three (js : List Json) (allA : List Analyst)
    (hall : mapExcept pydanticAnalyst js = Except.ok allA) :
    create_analysts (LoadResult.ok (Json.obj [("analysts", Json.arr js)])) =
      Except.ok (allA.take 3, 0) ∧
    ∀ (r : LoadResult) (roster : List Analyst) (idx : Nat),
      create_analysts r = Except.ok (roster, idx) → roster.length ≤ 3 := by
  constructor
  · have ht := mapExcept_take pydanticAnalyst js 3 allA hall
    have hparse : parseAnalysts (LoadResult.ok (Json.obj [("analysts", Json.arr js)])) =
        mapExcept pydanticAnalyst (js.take 3) := rfl
    simp only [create_analysts, hparse, ht]
  · intro r roster idx h
    exact (create_analysts_ok_shape r roster idx h).2

/-- C10 witness: a four-analyst response is truncated to its first
three records. -/
theorem create_analysts_first_three_witness :
    create_analysts (LoadResult.ok (Json.obj [("analysts", Json.arr js4)])) =
      Except.ok (all4.take 3, 0) :=
  (create_analysts_first_three js4 all4 rfl).1

end Sage
